import Mathlib

/-!
Shallow embedding of the Lazy Plugin Loader scheduler for Obsidian and proofs
about its startup classification (getPluginStartup), its enable/disable/timer
scheduling (setPluginStartup, in both the class-based and the group-based
variant), the teardown of pending timers (onunload), and the dependency-aware
load-order computation (saveLoadOrder in the settings tab).

Modelling conventions:
- JS objects used as maps (settings.plugins, settings.groups) become
  insertion-ordered association lists, looked up with lookupAssoc.
- JS numbers become rationals.  The single field the code explicitly guards
  with isNaN (delayBetweenPlugins) is modelled with an explicit NaN
  constructor (JSNum).
- The host-visible effects of one scheduler call become an explicit list of
  Action values; a thrown TypeError becomes an Option JsError component.
-/

namespace LazyPlugins

/-- The startup classes, from the string enum LoadingMethod in settings.ts. -/
inductive LoadingMethod where
  | disabled
  | instant
  | short
  | long
  deriving DecidableEq

/-- A JS number as stored in the delayBetweenPlugins field: either NaN or a
numeric value (modelled as a rational). -/
inductive JSNum where
  | nan
  | num (val : ℚ)
  deriving DecidableEq

/-- Per-plugin configuration, from interface PluginSettings (settings file of
the groups variant): optional startup type, optional dependency, optional
group ids. -/
structure PluginSettings where
  startupType : Option LoadingMethod
  loadAfter : Option String
  groupIds : Option (List String)
  deriving DecidableEq

/-- Per-group configuration, from interface PluginGroupSettings. -/
structure PluginGroupSettings where
  enablePluginsDuringStartup : Bool
  generateEnableDisableCommands : Bool
  startupDelaySeconds : ℚ
  autoAddNewPlugins : Bool
  plugins : List String
  deriving DecidableEq

/-- The settings.plugins map: a JS object keyed by plugin id, modelled as an
insertion-ordered association list (Object.keys order is insertion order). -/
abbrev PluginsMap := List (String × PluginSettings)

/-- Per-device settings, from interface DeviceSettings. -/
structure DeviceSettings where
  shortDelaySeconds : ℚ
  longDelaySeconds : ℚ
  delayBetweenPlugins : JSNum
  defaultStartupType : Option LoadingMethod
  plugins : PluginsMap
  groups : List (String × PluginGroupSettings)
  deriving DecidableEq

/-- A plugin manifest entry as consumed from the host: id and display name.
The scheduler's this.manifests list holds these, sorted ascending by name. -/
structure PluginManifest where
  id : String
  name : String
  deriving DecidableEq

/-- Lookup of key k in a JS object modelled as an association list
(the first binding wins, as JS object keys are unique). -/
def lookupAssoc {α : Type} (m : List (String × α)) (k : String) : Option α :=
  match m with
  | [] => none
  | (k', v) :: rest => if k' = k then some v else lookupAssoc rest k

/-- The optional-chained access settings.plugins?.[id]?.startupType. -/
def lookupStartupType (plugins : PluginsMap) (id : String) : Option LoadingMethod :=
  (lookupAssoc plugins id).bind PluginSettings.startupType

/-- getPluginStartup (main.ts lines 121-125):
plugins?.[id]?.startupType || defaultStartupType || (enabled ? instant : disabled).
All LoadingMethod strings are truthy and null is falsy, so the JS || chain is
exactly this priority order. -/
def getPluginStartup (settings : DeviceSettings) (enabledPlugins : List String)
    (pluginId : String) : LoadingMethod :=
  match lookupStartupType settings.plugins pluginId with
  | some t => t
  | none =>
    match settings.defaultStartupType with
    | some t => t
    | none =>
      if pluginId ∈ enabledPlugins then LoadingMethod.instant else LoadingMethod.disabled

/-- The stagger computed at main.ts line 102:
isNaN(this.settings.delayBetweenPlugins) ? 40 : this.settings.delayBetweenPlugins. -/
def staggerFor (settings : DeviceSettings) : ℚ :=
  match settings.delayBetweenPlugins with
  | JSNum.nan => 40
  | JSNum.num v => v

/-- this.manifests.findIndex(x => x.id === pluginId): the index of the first
matching manifest, or -1 when the plugin is not in the list. -/
def jsFindIndex (manifests : List PluginManifest) (pluginId : String) : Int :=
  match manifests.findIdx? (fun x => decide (x.id = pluginId)) with
  | some i => (i : Int)
  | none => -1

/-- One host-visible effect of a scheduler call: the two persisted calls, the
transient enable, or the arming of a timer with its fire delay in
milliseconds. -/
inductive Action where
  | disablePluginAndSave (pluginId : String)
  | enablePluginAndSave (pluginId : String)
  | enablePlugin (pluginId : String)
  | armTimer (pluginId : String) (delayMs : ℚ)
  deriving DecidableEq

/-- The short/long branch of setPluginStartup (part_001 lines 59-82).
seconds is shortDelaySeconds for the short class and longDelaySeconds for the
long class (the conditional at line 66).  If the plugin is active on startup
it is disable-and-saved then transiently re-enabled; otherwise, if it is not
running, one timer is armed at seconds*1000 + findIndex*stagger. -/
def delayedStartupActions (settings : DeviceSettings) (manifests : List PluginManifest)
    (pluginId : String) (seconds : ℚ) (isActiveOnStartup isRunning : Bool) : List Action :=
  if isActiveOnStartup then
    [Action.disablePluginAndSave pluginId, Action.enablePlugin pluginId]
  else if !isRunning then
    [Action.armTimer pluginId
      (seconds * 1000 + (jsFindIndex manifests pluginId : ℚ) * staggerFor settings)]
  else []

/-- setPluginStartup (part_001 lines 40-85): dispatch on the resolved startup
type.  isActiveOnStartup is enabledPlugins.has(pluginId); isRunning is the
truthiness of obsidian.plugins?.[pluginId]?._loaded, modelled as membership in
the list of loaded plugin ids. -/
def setPluginStartup (settings : DeviceSettings) (manifests : List PluginManifest)
    (enabledPlugins loadedPlugins : List String) (pluginId : String) : List Action :=
  let startupType := getPluginStartup settings enabledPlugins pluginId
  let isActiveOnStartup : Bool := decide (pluginId ∈ enabledPlugins)
  let isRunning : Bool := decide (pluginId ∈ loadedPlugins)
  match startupType with
  | LoadingMethod.disabled => [Action.disablePluginAndSave pluginId]
  | LoadingMethod.instant =>
    if !isActiveOnStartup && !isRunning then [Action.enablePluginAndSave pluginId] else []
  | LoadingMethod.short =>
    delayedStartupActions settings manifests pluginId settings.shortDelaySeconds
      isActiveOnStartup isRunning
  | LoadingMethod.long =>
    delayedStartupActions settings manifests pluginId settings.longDelaySeconds
      isActiveOnStartup isRunning

/-- A thrown JS runtime error.  The only one the modelled paths can raise is a
TypeError from a property access on undefined. -/
inductive JsError where
  | typeError
  deriving DecidableEq

/-- Object.assign([], base, overlay) on two arrays: overlay's elements win at
the indices it covers, base supplies the rest (result index i is overlay[i]
for i below overlay.length, else base[i]). -/
def jsOverlayList (base overlay : List String) : List String :=
  overlay ++ base.drop overlay.length

/-- getPluginsGroups (main.ts lines 128-131): the plugin's groupIds after the
Object.assign of the LoadingMethod names list with the configured groupIds
(an undefined source contributes nothing, hence the getD []). -/
def getPluginsGroups (ps : PluginSettings) : List String :=
  jsOverlayList ["disabled", "instant", "short", "long"] (ps.groupIds.getD [])

/-- The pipeline at main.ts line 74:
getPluginsGroups(id).map(gid => settings?.groups[gid]).filter(g => g.enablePluginsDuringStartup).
If any group id maps to undefined, the filter callback's property access on
undefined throws a TypeError; otherwise the groups with
enablePluginsDuringStartup are kept.  The trailing one-argument .sort is an
implementation-defined permutation, so callers receive the pre-sort list. -/
def filteredEnabledGroups (groups : List (String × PluginGroupSettings))
    (ps : PluginSettings) : Except JsError (List PluginGroupSettings) :=
  let mapped := (getPluginsGroups ps).map (fun gid => lookupAssoc groups gid)
  if mapped.any Option.isNone then Except.error JsError.typeError
  else Except.ok ((mapped.filterMap id).filter PluginGroupSettings.enablePluginsDuringStartup)

/-- The JS truth value of !arr for an array arr: every array object, including
an empty one, is truthy, so the negation is constantly false. -/
def jsNotArray {α : Type} (_xs : List α) : Bool := false

/-- The group-based setPluginStartup (main.ts lines 71-115) from the
`if (!groups)` guard at line 78 onward.  groups is the filtered (and
permuted) list produced at line 74.  Returns the host-visible actions issued
and, when the code path throws, the error: with an empty groups list the
`!groups` guard does not fire (arrays are truthy), loadGroup is undefined and
reading loadGroup.startupDelaySeconds at line 92 throws a TypeError before
any host call is made. -/
def setPluginStartupGrouped (groups : List PluginGroupSettings)
    (settings : DeviceSettings) (manifests : List PluginManifest)
    (pluginId : String) (isEnabled isRunning : Bool) : List Action × Option JsError :=
  if jsNotArray groups then ([Action.disablePluginAndSave pluginId], none)
  else
    match groups.head? with
    | none => ([], some JsError.typeError)
    | some loadGroup =>
      let currentlyActive := isEnabled && isRunning
      if loadGroup.startupDelaySeconds = 0 then
        ([Action.enablePluginAndSave pluginId], none)
      else if currentlyActive then
        ([Action.disablePluginAndSave pluginId, Action.enablePlugin pluginId], none)
      else if !isRunning then
        ([Action.armTimer pluginId
          (loadGroup.startupDelaySeconds * 1000
            + (jsFindIndex manifests pluginId : ℚ) * staggerFor settings)], none)
      else ([], none)

/-- The deferral test inside saveLoadOrder's loop (part_004 lines 362-366):
the dequeued plugin is moved to the back of the queue when its loadAfter is a
truthy (nonempty) string, the parent is not yet in the load order, and the
parent's configured startupType is not disabled.  A parent id absent from the
map makes the third test succeed, because undefined !== disabled.  The queue
only ever holds keys of the map, so the outer lookup never misses; none is
mapped to false to keep the function total. -/
def deferGuard (plugins : PluginsMap) (loadOrder : List String) (id : String) : Bool :=
  match lookupAssoc plugins id with
  | none => false
  | some ps =>
    match ps.loadAfter with
    | none => false
    | some la =>
      if la = "" then false
      else if la ∈ loadOrder then false
      else if lookupStartupType plugins la = some LoadingMethod.disabled then false
      else true

/-- The initial work queue of saveLoadOrder (part_004 lines 348-352): all ids
whose startupType is instant, in map order, then the short ones, then the
long ones.  Disabled and unconfigured plugins are excluded. -/
def initialQueue (plugins : PluginsMap) : List String :=
  ((plugins.filter (fun p => decide (p.2.startupType = some LoadingMethod.instant))).map Prod.fst)
    ++ ((plugins.filter (fun p => decide (p.2.startupType = some LoadingMethod.short))).map Prod.fst)
    ++ ((plugins.filter (fun p => decide (p.2.startupType = some LoadingMethod.long))).map Prod.fst)

/-- The outcome of the saveLoadOrder loop: the computed load order, the queue
contents left unprocessed when the loop exited, and the number of loop
iterations executed. -/
structure LoadOrderResult where
  loadOrder : List String
  remaining : List String
  iterations : Nat
  deriving DecidableEq

/-- The while loop of saveLoadOrder (part_004 lines 357-374).  The fuel
argument is the number of iterations the `count < total + 10` condition still
allows, so the loop body runs while the queue is nonempty and fuel remains;
each iteration dequeues the head and either defers it to the tail of the
queue or appends it to the load order.  When the bound is reached the loop
simply exits: whatever is still queued is returned in `remaining` and is not
written to the load order. -/
def processQueue (plugins : PluginsMap) : Nat → List String → List String → LoadOrderResult
  | 0, queue, acc => ⟨acc, queue, 0⟩
  | _ + 1, [], acc => ⟨acc, [], 0⟩
  | fuel + 1, id :: rest, acc =>
    if deferGuard plugins acc id then
      let r := processQueue plugins fuel (rest ++ [id]) acc
      ⟨r.loadOrder, r.remaining, r.iterations + 1⟩
    else
      let r := processQueue plugins fuel rest (acc ++ [id])
      ⟨r.loadOrder, r.remaining, r.iterations + 1⟩

/-- saveLoadOrder (part_004 lines 344-377) as a pure function of the
settings.plugins map: seed the queue, run the bounded loop, and return the
full outcome.  The source stores the loadOrder component into
settings.loadOrder and persists it. -/
def saveLoadOrderRun (plugins : PluginsMap) : LoadOrderResult :=
  let toProcess := initialQueue plugins
  processQueue plugins (toProcess.length + 10) toProcess []

/-- The load order that saveLoadOrder persists. -/
def saveLoadOrder (plugins : PluginsMap) : List String :=
  (saveLoadOrderRun plugins).loadOrder

/-- One armed timeout held in this.pendingTimeouts: the handle identity, the
plugin it will enable, and its fire delay. -/
structure TimerInfo where
  timerId : Nat
  pluginId : String
  delayMs : ℚ
  deriving DecidableEq

/-- The scheduler's registry of armed, not-yet-fired timeouts. -/
structure SchedulerState where
  pendingTimeouts : List TimerInfo
  deriving DecidableEq

/-- clearTimeout(timeout): the cancelled timer is no longer pending. -/
def clearOneTimeout (s : SchedulerState) (t : TimerInfo) : SchedulerState :=
  ⟨s.pendingTimeouts.filter (fun u => decide (u ≠ t))⟩

/-- The first statement of onunload (part_000 line 146):
this.pendingTimeouts.forEach(timeout => clearTimeout(timeout)). -/
def onunloadClearTimeouts (s : SchedulerState) : SchedulerState :=
  s.pendingTimeouts.foldl clearOneTimeout s

/-- A timer callback firing (part_001 lines 72-78): it only runs if the
timeout is still pending; it re-checks obsidian.plugins?.[id]?._loaded and
issues one transient enablePlugin when the plugin is still not loaded. -/
def fireTimer (loadedPlugins : List String) (s : SchedulerState) (t : TimerInfo) :
    SchedulerState × List Action :=
  if t ∈ s.pendingTimeouts then
    (⟨s.pendingTimeouts.filter (fun u => decide (u ≠ t))⟩,
      if t.pluginId ∈ loadedPlugins then [] else [Action.enablePlugin t.pluginId])
  else (s, [])

/-- Run a sequence of timer-fire events against a scheduler state, collecting
every action the callbacks issue. -/
def runFires (loadedPlugins : List String) : SchedulerState → List TimerInfo → List Action
  | _, [] => []
  | s, t :: ts =>
    let step := fireTimer loadedPlugins s t
    step.2 ++ runFires loadedPlugins step.1 ts

/-- The concrete scenario of the spec: units x (short) and y (long), sorted by
name, with shortDelaySeconds 5, longDelaySeconds 15, stagger 40 ms. -/
def scenarioSettings : DeviceSettings :=
  ⟨5, 15, JSNum.num 40, none,
    [("x", ⟨some LoadingMethod.short, none, none⟩),
     ("y", ⟨some LoadingMethod.long, none, none⟩)], []⟩

/-- The manifest list for the concrete scenario, already name-sorted. -/
def scenarioManifests : List PluginManifest := [⟨"x", "x"⟩, ⟨"y", "y"⟩]

/-- Two instant plugins that name each other in loadAfter: the mutual
dependency of the spec's cycle scenario. -/
def mutualConfig : PluginsMap :=
  [("a", ⟨some LoadingMethod.instant, some "b", none⟩),
   ("b", ⟨some LoadingMethod.instant, some "a", none⟩)]

/-- One instant plugin whose loadAfter names an id that is not in the map. -/
def ghostConfig : PluginsMap :=
  [("a", ⟨some LoadingMethod.instant, some "ghost", none⟩)]

/-- An acyclic dependency pair: a waits for b, b has no dependency. -/
def chainConfig : PluginsMap :=
  [("a", ⟨some LoadingMethod.instant, some "b", none⟩),
   ("b", ⟨some LoadingMethod.instant, none, none⟩)]

/-- C2: getPluginStartup returns, in this priority order, the plugin's
configured startupType when present; otherwise the profile's
defaultStartupType when set; otherwise instant when the host currently
reports the plugin enabled and disabled otherwise. -/
theorem getPluginStartup_priority (settings : DeviceSettings)
    (enabled : List String) (pluginId : String) :
    (∀ t, lookupStartupType settings.plugins pluginId = some t →
      getPluginStartup settings enabled pluginId = t) ∧
    (lookupStartupType settings.plugins pluginId = none →
      ∀ d, settings.defaultStartupType = some d →
        getPluginStartup settings enabled pluginId = d) ∧
    (lookupStartupType settings.plugins pluginId = none →
      settings.defaultStartupType = none →
      getPluginStartup settings enabled pluginId =
        (if pluginId ∈ enabled then LoadingMethod.instant else LoadingMethod.disabled)) := by
  refine ⟨?_, ?_, ?_⟩
  · intro t ht
    simp [getPluginStartup, ht]
  · intro h1 d h2
    simp [getPluginStartup, h1, h2]
  · intro h1 h2
    simp [getPluginStartup, h1, h2]

/-- A settings state with a configured per-plugin startup type. -/
def configuredSettings : DeviceSettings :=
  ⟨5, 15, JSNum.num 40, some LoadingMethod.short,
    [("p", ⟨some LoadingMethod.long, none, none⟩)], []⟩

/-- A settings state with only a default startup type set. -/
def defaultOnlySettings : DeviceSettings :=
  ⟨5, 15, JSNum.num 40, some LoadingMethod.short, [], []⟩

/-- A settings state with neither a per-plugin nor a default startup type. -/
def bareSettings : DeviceSettings :=
  ⟨5, 15, JSNum.num 40, none, [], []⟩

/-- Witness for C2: all three priority levels observed on concrete states. -/
theorem getPluginStartup_priority_witness :
    getPluginStartup configuredSettings [] "p" = LoadingMethod.long ∧
    getPluginStartup defaultOnlySettings [] "p" = LoadingMethod.short ∧
    getPluginStartup bareSettings ["p"] "p" = LoadingMethod.instant := by
  refine ⟨(getPluginStartup_priority configuredSettings [] "p").1 _ (by decide),
    (getPluginStartup_priority defaultOnlySettings [] "p").2.1 (by decide) _ rfl, ?_⟩
  have h := (getPluginStartup_priority bareSettings ["p"] "p").2.2 (by decide) rfl
  simpa using h

/-- C10: the stagger used when arming a delayed timer is 40 ms when the
device's delayBetweenPlugins is NaN, and exactly that field's value when it
is a number. -/
theorem staggerFor_resolution :
    (∀ settings : DeviceSettings, settings.delayBetweenPlugins = JSNum.nan →
      staggerFor settings = 40) ∧
    (∀ (settings : DeviceSettings) (v : ℚ), settings.delayBetweenPlugins = JSNum.num v →
      staggerFor settings = v) :=
  ⟨fun _ h => by simp [staggerFor, h], fun _ _ h => by simp [staggerFor, h]⟩

/-- A settings state whose delayBetweenPlugins is NaN. -/
def nanStaggerSettings : DeviceSettings := ⟨5, 15, JSNum.nan, none, [], []⟩

/-- A settings state whose delayBetweenPlugins is the number 25. -/
def numStaggerSettings : DeviceSettings := ⟨5, 15, JSNum.num 25, none, [], []⟩

/-- Witness for C10: both branches of the stagger resolution evaluated. -/
theorem staggerFor_resolution_witness :
    staggerFor nanStaggerSettings = 40 ∧ staggerFor numStaggerSettings = 25 :=
  ⟨staggerFor_resolution.1 nanStaggerSettings rfl,
   staggerFor_resolution.2 numStaggerSettings 25 rfl⟩

/-- C7: a short- or long-class plugin that the host reports enabled but not
running gets exactly one disable-and-persist followed by exactly one
transient enable, in that order, and no timer is armed. -/
theorem setPluginStartup_enabledNotRunning (settings : DeviceSettings)
    (manifests : List PluginManifest) (enabled loaded : List String) (pluginId : String)
    (hty : getPluginStartup settings enabled pluginId = LoadingMethod.short ∨
      getPluginStartup settings enabled pluginId = LoadingMethod.long)
    (hen : pluginId ∈ enabled) (_hrun : pluginId ∉ loaded) :
    setPluginStartup settings manifests enabled loaded pluginId =
      [Action.disablePluginAndSave pluginId, Action.enablePlugin pluginId] := by
  rcases hty with h | h <;>
    simp [setPluginStartup, h, delayedStartupActions, hen]

/-- Witness for C7: plugin x of the scenario, enabled but not loaded. -/
theorem setPluginStartup_enabledNotRunning_witness :
    setPluginStartup scenarioSettings scenarioManifests ["x"] [] "x" =
      [Action.disablePluginAndSave "x", Action.enablePlugin "x"] :=
  setPluginStartup_enabledNotRunning scenarioSettings scenarioManifests ["x"] [] "x"
    (Or.inl (by decide)) (by decide) (by decide)

/-- The short branch of the timer-arming path, as a reusable lemma. -/
theorem setPluginStartup_arms_short (settings : DeviceSettings)
    (manifests : List PluginManifest) (enabled loaded : List String) (pluginId : String)
    (h : getPluginStartup settings enabled pluginId = LoadingMethod.short)
    (hen : pluginId ∉ enabled) (hrun : pluginId ∉ loaded) :
    setPluginStartup settings manifests enabled loaded pluginId =
      [Action.armTimer pluginId (settings.shortDelaySeconds * 1000
        + (jsFindIndex manifests pluginId : ℚ) * staggerFor settings)] := by
  simp [setPluginStartup, h, delayedStartupActions, hen, hrun]

/-- The long branch of the timer-arming path, as a reusable lemma. -/
theorem setPluginStartup_arms_long (settings : DeviceSettings)
    (manifests : List PluginManifest) (enabled loaded : List String) (pluginId : String)
    (h : getPluginStartup settings enabled pluginId = LoadingMethod.long)
    (hen : pluginId ∉ enabled) (hrun : pluginId ∉ loaded) :
    setPluginStartup settings manifests enabled loaded pluginId =
      [Action.armTimer pluginId (settings.longDelaySeconds * 1000
        + (jsFindIndex manifests pluginId : ℚ) * staggerFor settings)] := by
  simp [setPluginStartup, h, delayedStartupActions, hen, hrun]

/-- C1: a short- or long-class plugin that is neither enabled nor running
gets exactly one armed timer whose fire delay is the class base delay in
milliseconds plus findIndex * stagger, where findIndex is the plugin's
position in the (name-sorted) manifest list; in the spec's concrete scenario
x fires at 5000 ms and y at 15040 ms. -/
theorem setPluginStartup_armsStaggeredTimer :
    (∀ (settings : DeviceSettings) (manifests : List PluginManifest)
        (enabled loaded : List String) (pluginId : String),
      getPluginStartup settings enabled pluginId = LoadingMethod.short →
      pluginId ∉ enabled → pluginId ∉ loaded →
      setPluginStartup settings manifests enabled loaded pluginId =
        [Action.armTimer pluginId (settings.shortDelaySeconds * 1000
          + (jsFindIndex manifests pluginId : ℚ) * staggerFor settings)]) ∧
    (∀ (settings : DeviceSettings) (manifests : List PluginManifest)
        (enabled loaded : List String) (pluginId : String),
      getPluginStartup settings enabled pluginId = LoadingMethod.long →
      pluginId ∉ enabled → pluginId ∉ loaded →
      setPluginStartup settings manifests enabled loaded pluginId =
        [Action.armTimer pluginId (settings.longDelaySeconds * 1000
          + (jsFindIndex manifests pluginId : ℚ) * staggerFor settings)]) ∧
    (∀ (manifests : List PluginManifest) (pluginId : String) (i : ℕ),
      manifests.findIdx? (fun x => decide (x.id = pluginId)) = some i →
      jsFindIndex manifests pluginId = (i : Int)) ∧
    setPluginStartup scenarioSettings scenarioManifests [] [] "x" =
      [Action.armTimer "x" 5000] ∧
    setPluginStartup scenarioSettings scenarioManifests [] [] "y" =
      [Action.armTimer "y" 15040] := by
  refine ⟨setPluginStartup_arms_short, setPluginStartup_arms_long, ?_, ?_, ?_⟩
  · intro manifests pluginId i h
    simp [jsFindIndex, h]
  · rw [setPluginStartup_arms_short scenarioSettings scenarioManifests [] [] "x"
      (by decide) (by decide) (by decide)]
    have hidx : jsFindIndex scenarioManifests "x" = 0 := by decide
    have hst : staggerFor scenarioSettings = 40 := rfl
    rw [hidx, hst]
    norm_num [scenarioSettings]
  · rw [setPluginStartup_arms_long scenarioSettings scenarioManifests [] [] "y"
      (by decide) (by decide) (by decide)]
    have hidx : jsFindIndex scenarioManifests "y" = 1 := by decide
    have hst : staggerFor scenarioSettings = 40 := rfl
    rw [hidx, hst]
    norm_num [scenarioSettings]

/-- Witness for C1: the short-class branch applied to plugin x of the
concrete scenario, with every hypothesis discharged there. -/
theorem setPluginStartup_armsStaggeredTimer_witness :
    setPluginStartup scenarioSettings scenarioManifests [] [] "x" =
      [Action.armTimer "x" (scenarioSettings.shortDelaySeconds * 1000
        + (jsFindIndex scenarioManifests "x" : ℚ) * staggerFor scenarioSettings)] :=
  setPluginStartup_armsStaggeredTimer.1 scenarioSettings scenarioManifests [] [] "x"
    (by decide) (by decide) (by decide)

/-- Folding clearTimeout over a list containing every pending timeout leaves
the pending registry empty. -/
theorem foldl_clearOneTimeout_eq_nil :
    ∀ (l : List TimerInfo) (s : SchedulerState),
      (∀ x ∈ s.pendingTimeouts, x ∈ l) → (l.foldl clearOneTimeout s).pendingTimeouts = [] := by
  intro l
  induction l with
  | nil =>
    intro s h
    simpa using List.eq_nil_iff_forall_not_mem.mpr (fun x hx => by simpa using h x hx)
  | cons t ts ih =>
    intro s h
    simp only [List.foldl_cons]
    refine ih (clearOneTimeout s t) ?_
    intro x hx
    simp only [clearOneTimeout, List.mem_filter] at hx
    have hne : x ≠ t := of_decide_eq_true hx.2
    rcases List.mem_cons.mp (h x hx.1) with h' | h'
    · exact absurd h' hne
    · exact h'

/-- No fire event produces any action once the pending registry is empty. -/
theorem runFires_empty_pending (loaded : List String) (fires : List TimerInfo) :
    runFires loaded ⟨[]⟩ fires = [] := by
  induction fires with
  | nil => rfl
  | cons t ts ih => simpa [runFires, fireTimer] using ih

/-- C9: running the teardown (the clearTimeout loop of onunload) before any
pending timer fires empties the pending registry, so any sequence of
subsequent fire events yields zero transient enable calls. -/
theorem onunload_cancelsAllTimers (s : SchedulerState) (loadedPlugins : List String)
    (fires : List TimerInfo) :
    (onunloadClearTimeouts s).pendingTimeouts = [] ∧
    runFires loadedPlugins (onunloadClearTimeouts s) fires = [] := by
  have h : (onunloadClearTimeouts s).pendingTimeouts = [] :=
    foldl_clearOneTimeout_eq_nil s.pendingTimeouts s (fun x hx => hx)
  refine ⟨h, ?_⟩
  have h2 : onunloadClearTimeouts s = ⟨[]⟩ := by
    cases hs : onunloadClearTimeouts s with
    | mk l => rw [hs] at h; simpa using h
  rw [h2]
  exact runFires_empty_pending loadedPlugins fires

/-- The loop body of saveLoadOrder executes at most fuel more iterations. -/
theorem processQueue_iterations_le (plugins : PluginsMap) :
    ∀ (fuel : Nat) (queue acc : List String),
      (processQueue plugins fuel queue acc).iterations ≤ fuel := by
  intro fuel
  induction fuel with
  | zero => intro queue acc; simp [processQueue]
  | succ n ih =>
    intro queue acc
    cases queue with
    | nil => simp [processQueue]
    | cons id rest =>
      by_cases h : deferGuard plugins acc id
      · simp only [processQueue, h, if_true]
        exact Nat.succ_le_succ (ih _ _)
      · simp only [processQueue, h, if_false]
        exact Nat.succ_le_succ (ih _ _)

/-- C4: for every configuration the load-order computation terminates, and it
executes at most (initial queue size) + 10 loop iterations; on the two-unit
mutual dependency it stops exactly at that bound (12 iterations). -/
theorem saveLoadOrder_terminatesWithinBound :
    (∀ plugins : PluginsMap,
      (saveLoadOrderRun plugins).iterations ≤ (initialQueue plugins).length + 10) ∧
    (saveLoadOrderRun mutualConfig).iterations = (initialQueue mutualConfig).length + 10 := by
  constructor
  · intro plugins
    exact processQueue_iterations_le plugins _ _ _
  · decide

/-- Each loop iteration moves the dequeued head either into the load order or
to the back of the queue, so load order and leftover queue together are a
permutation of the input queue prepended with the accumulator. -/
theorem processQueue_perm (plugins : PluginsMap) :
    ∀ (fuel : Nat) (queue acc : List String),
      ((processQueue plugins fuel queue acc).loadOrder
        ++ (processQueue plugins fuel queue acc).remaining).Perm (acc ++ queue) := by
  intro fuel
  induction fuel with
  | zero =>
    intro queue acc
    simp [processQueue]
  | succ n ih =>
    intro queue acc
    cases queue with
    | nil => simp [processQueue]
    | cons id rest =>
      by_cases h : deferGuard plugins acc id
      · simp only [processQueue, h, if_true]
        exact (ih (rest ++ [id]) acc).trans
          (List.Perm.append_left acc (List.perm_append_singleton id rest))
      · simp only [processQueue, h, if_false]
        have heq : (acc ++ [id]) ++ rest = acc ++ id :: rest := by simp
        exact heq ▸ ih rest (acc ++ [id])

/-- C5 counterexample: in the mutual-dependency configuration both plugins
are non-disabled (instant) yet the resulting load order contains neither:
the units still queued at the bound are dropped, not emitted. -/
theorem saveLoadOrder_dropsNonDisabledOnCycle :
    lookupStartupType mutualConfig "a" = some LoadingMethod.instant ∧
    lookupStartupType mutualConfig "b" = some LoadingMethod.instant ∧
    "a" ∉ saveLoadOrder mutualConfig ∧
    "b" ∉ saveLoadOrder mutualConfig := by
  decide

/-- C5 amended: when the iteration bound is reached the still-queued units
are dropped from the persisted load order rather than emitted; the load order
and the leftover queue together always form a permutation of the initial
queue, and on the mutual dependency the load order is empty while both units
sit in the leftover queue. -/
theorem saveLoadOrder_boundDropsQueuedUnits :
    (∀ plugins : PluginsMap,
      ((saveLoadOrderRun plugins).loadOrder
        ++ (saveLoadOrderRun plugins).remaining).Perm (initialQueue plugins)) ∧
    (saveLoadOrderRun mutualConfig).loadOrder = [] ∧
    (saveLoadOrderRun mutualConfig).remaining = ["a", "b"] := by
  refine ⟨?_, by decide, by decide⟩
  intro plugins
  have h := processQueue_perm plugins ((initialQueue plugins).length + 10) (initialQueue plugins) []
  simpa [saveLoadOrderRun] using h

/-- Invariant of the saveLoadOrder loop: if plugin a declares a truthy,
non-disabled loadAfter b, then a is only ever appended when b is already in
the accumulated order, so every a in the produced order has b before it. -/
theorem processQueue_dependentAfterParent (plugins : PluginsMap) (a b : String)
    (psa : PluginSettings) (ha : lookupAssoc plugins a = some psa)
    (hla : psa.loadAfter = some b) (hb : b ≠ "")
    (hdis : lookupStartupType plugins b ≠ some LoadingMethod.disabled) :
    ∀ (fuel : Nat) (queue acc : List String),
      (a ∈ acc → List.Sublist [b, a] acc) →
      a ∈ (processQueue plugins fuel queue acc).loadOrder →
      List.Sublist [b, a] (processQueue plugins fuel queue acc).loadOrder := by
  intro fuel
  induction fuel with
  | zero =>
    intro queue acc hP hmem
    simp only [processQueue] at hmem ⊢
    exact hP hmem
  | succ n ih =>
    intro queue acc hP hmem
    cases queue with
    | nil =>
      simp only [processQueue] at hmem ⊢
      exact hP hmem
    | cons id rest =>
      by_cases h : deferGuard plugins acc id
      · simp only [processQueue, h, if_true] at hmem ⊢
        exact ih (rest ++ [id]) acc hP hmem
      · simp only [processQueue, h, if_false] at hmem ⊢
        refine ih rest (acc ++ [id]) ?_ hmem
        intro haMem
        rcases List.mem_append.mp haMem with hacc | hid
        · exact (hP hacc).trans (List.sublist_append_left acc [id])
        · have hEq : a = id := by simpa using hid
          subst hEq
          have hbacc : b ∈ acc := by
            by_contra hbn
            apply h
            simp [deferGuard, ha, hla, hb, hbn, hdis]
          exact List.Sublist.append (List.singleton_sublist.mpr hbacc) (List.Sublist.refl [a])

/-- C3 counterexample: in the mutual-dependency configuration a has
loadAfter b, both are instant, b is present and not disabled, yet the
computed order (empty) does not place b before a. -/
theorem saveLoadOrder_cycleEmitsNeither :
    lookupAssoc mutualConfig "a" = some ⟨some LoadingMethod.instant, some "b", none⟩ ∧
    lookupStartupType mutualConfig "b" = some LoadingMethod.instant ∧
    ¬ List.Sublist ["b", "a"] (saveLoadOrder mutualConfig) := by
  decide

/-- C3 amended: whenever plugin a appears in the computed load order and a's
loadAfter names a nonempty id b whose configured startup type is not
disabled, b appears at an earlier position of the order. -/
theorem saveLoadOrder_parentBeforeDependent (plugins : PluginsMap) (a b : String)
    (psa : PluginSettings) (ha : lookupAssoc plugins a = some psa)
    (hla : psa.loadAfter = some b) (hb : b ≠ "")
    (hdis : lookupStartupType plugins b ≠ some LoadingMethod.disabled)
    (hmem : a ∈ saveLoadOrder plugins) :
    List.Sublist [b, a] (saveLoadOrder plugins) := by
  simp only [saveLoadOrder, saveLoadOrderRun] at hmem ⊢
  exact processQueue_dependentAfterParent plugins a b psa ha hla hb hdis _ _ []
    (fun hfalse => absurd hfalse (List.not_mem_nil a)) hmem

/-- Witness for the amended C3: in the acyclic two-plugin configuration the
dependent a follows its parent b in the computed order. -/
theorem saveLoadOrder_parentBeforeDependent_witness :
    List.Sublist ["b", "a"] (saveLoadOrder chainConfig) :=
  saveLoadOrder_parentBeforeDependent chainConfig "a" "b"
    ⟨some LoadingMethod.instant, some "b", none⟩ (by decide) rfl (by decide) (by decide)
    (by decide)

/-- A key whose lookup misses does not occur among the map's keys. -/
theorem lookupAssoc_none_keys {α : Type} :
    ∀ (m : List (String × α)) (k : String), lookupAssoc m k = none →
      ∀ p ∈ m, p.1 ≠ k := by
  intro m
  induction m with
  | nil =>
    intro k _ p hp
    cases hp
  | cons q rest ih =>
    intro k hnone p hp
    obtain ⟨k', v'⟩ := q
    simp only [lookupAssoc] at hnone
    by_cases hk : k' = k
    · simp [hk] at hnone
    · rcases List.mem_cons.mp hp with rfl | hmem
      · exact hk
      · exact ih k (by simpa [hk] using hnone) p hmem

/-- Every id in the initial work queue is a key of the plugins map. -/
theorem mem_initialQueue_mem_keys (plugins : PluginsMap) (x : String)
    (hx : x ∈ initialQueue plugins) : ∃ p ∈ plugins, p.1 = x := by
  simp only [initialQueue, List.mem_append, List.mem_map] at hx
  rcases hx with (⟨p, hp, rfl⟩ | ⟨p, hp, rfl⟩) | ⟨p, hp, rfl⟩ <;>
    exact ⟨p, (List.mem_filter.mp hp).1, rfl⟩

/-- Invariant of the saveLoadOrder loop: a plugin whose loadAfter names an id
absent from the map is deferred at every dequeue, so it never reaches the
accumulated order. -/
theorem processQueue_danglingDeferredForever (plugins : PluginsMap) (a la : String)
    (psa : PluginSettings) (ha : lookupAssoc plugins a = some psa)
    (hla : psa.loadAfter = some la) (hne : la ≠ "")
    (hmiss : lookupAssoc plugins la = none) :
    ∀ (fuel : Nat) (queue acc : List String),
      la ∉ queue → la ∉ acc → a ∉ acc →
      a ∉ (processQueue plugins fuel queue acc).loadOrder := by
  have hla_ne_a : la ≠ a := by
    intro h
    rw [h, ha] at hmiss
    cases hmiss
  intro fuel
  induction fuel with
  | zero =>
    intro queue acc _ _ hacc
    simpa [processQueue] using hacc
  | succ n ih =>
    intro queue acc hq hlacc hacc
    cases queue with
    | nil => simpa [processQueue] using hacc
    | cons id rest =>
      have hq_rest : la ∉ rest := fun hmem => hq (List.mem_cons_of_mem id hmem)
      have hq_id : la ≠ id := fun hmem => hq (hmem ▸ List.mem_cons_self id rest)
      by_cases hid : id = a
      · subst hid
        have hguard : deferGuard plugins acc id = true := by
          simp [deferGuard, ha, hla, hne, hlacc, lookupStartupType, hmiss]
        simp only [processQueue, hguard, if_true]
        refine ih (rest ++ [id]) acc ?_ hlacc hacc
        intro hmem
        rcases List.mem_append.mp hmem with h1 | h1
        · exact hq_rest h1
        · exact hla_ne_a (by simpa using h1)
      · by_cases hguard : deferGuard plugins acc id
        · simp only [processQueue, hguard, if_true]
          refine ih (rest ++ [id]) acc ?_ hlacc hacc
          intro hmem
          rcases List.mem_append.mp hmem with h1 | h1
          · exact hq_rest h1
          · exact hq_id (by simpa using h1)
        · simp only [processQueue, hguard, if_false]
          refine ih rest (acc ++ [id]) hq_rest ?_ ?_
          · intro hmem
            rcases List.mem_append.mp hmem with h1 | h1
            · exact hlacc h1
            · exact hq_id (by simpa using h1)
          · intro hmem
            rcases List.mem_append.mp hmem with h1 | h1
            · exact hacc h1
            · exact hid ((by simpa using h1 : a = id)).symm

/-- C6 counterexample: a's loadAfter names the nonexistent id ghost; the
claim says a is appended as if it had no loadAfter, yet the computed load
order does not contain a at all. -/
theorem saveLoadOrder_ghostReferenceNotEmitted :
    lookupAssoc ghostConfig "ghost" = none ∧
    (lookupAssoc ghostConfig "a").bind PluginSettings.loadAfter = some "ghost" ∧
    "a" ∉ saveLoadOrder ghostConfig := by
  decide

/-- C6 amended: a plugin whose loadAfter names a nonexistent (nonempty) id is
treated as having a permanently unmet dependency: it is deferred on every
dequeue and never appears in the resulting load order (the computation still
terminates without failing, per the bound theorem). -/
theorem saveLoadOrder_danglingReferenceDropped (plugins : PluginsMap) (a la : String)
    (psa : PluginSettings) (ha : lookupAssoc plugins a = some psa)
    (hla : psa.loadAfter = some la) (hne : la ≠ "")
    (hmiss : lookupAssoc plugins la = none) :
    a ∉ saveLoadOrder plugins := by
  have hlaq : la ∉ initialQueue plugins := by
    intro hmem
    obtain ⟨p, hp, hpk⟩ := mem_initialQueue_mem_keys plugins la hmem
    exact lookupAssoc_none_keys plugins la hmiss p hp hpk
  simp only [saveLoadOrder, saveLoadOrderRun]
  exact processQueue_danglingDeferredForever plugins a la psa ha hla hne hmiss _ _ []
    hlaq (List.not_mem_nil la) (List.not_mem_nil a)

/-- Witness for the amended C6: the ghost configuration's plugin a never
appears in the computed order. -/
theorem saveLoadOrder_danglingReferenceDropped_witness :
    "a" ∉ saveLoadOrder ghostConfig :=
  saveLoadOrder_danglingReferenceDropped ghostConfig "a" "ghost"
    ⟨some LoadingMethod.instant, some "ghost", none⟩ (by decide) rfl (by decide) (by decide)

/-- Four groups, none of which enables its plugins during startup. -/
def allDisabledGroups : List (String × PluginGroupSettings) :=
  [("disabled", ⟨false, false, 0, false, []⟩),
   ("instant", ⟨false, false, 0, false, []⟩),
   ("short", ⟨false, false, 5, false, []⟩),
   ("long", ⟨false, false, 15, false, []⟩)]

/-- A plugin with no explicit groupIds, so it falls back to the four default
LoadingMethod group names. -/
def ungroupedPluginConfig : PluginSettings := ⟨some LoadingMethod.instant, none, none⟩

/-- C8 (code bug): when none of the plugin's groups has
enablePluginsDuringStartup, the filtered list is empty; because a JS array is
always truthy the `if (!groups)` guard cannot fire, so instead of the
documented disable-and-persist the code falls through, loadGroup is
undefined, and reading loadGroup.startupDelaySeconds throws a TypeError. No
host call is issued at all: no disable and no timer. -/
theorem setPluginStartupGrouped_noEnablingGroup :
    filteredEnabledGroups allDisabledGroups ungroupedPluginConfig = Except.ok [] ∧
    (∀ (settings : DeviceSettings) (manifests : List PluginManifest)
        (pluginId : String) (isEnabled isRunning : Bool),
      setPluginStartupGrouped [] settings manifests pluginId isEnabled isRunning =
        ([], some JsError.typeError)) :=
  ⟨rfl, fun _ _ _ _ _ => rfl⟩

end LazyPlugins
